import Mathlib

/-!
Verification of the solo-levelling backend (src/src/utils/supabase/client.ts).

The backend is a Hono app of CRUD handlers over a key-value store, plus a
token-based pseudo-authentication layer and an AI-backed mission generator.
This file gives a shallow embedding of the parts of that code the claims
talk about, and proves or refutes each claim.

Conventions of the embedding:
- JS strings handled at byte level (tokens, base64) are `List Nat` of char
  codes; strings used only as opaque keys/values are Lean `String`.
- JS numbers that the handlers treat as integers are `Int`.
- The key-value store (kv_store.tsx is imported by the server but its source
  is not in the repository snapshot) is modelled from the spec contract:
  get/set by exact key, prefix-scan returning the list of values.
-/

/-! ## Base64 (JS `btoa` / `atob`) and the token layer -/

/-- The base64 alphabet as char codes: A-Z, a-z, 0-9, '+', '/'. -/
def b64alphabet : List Nat :=
  [65, 66, 67, 68, 69, 70, 71, 72, 73, 74, 75, 76, 77, 78, 79, 80, 81, 82,
   83, 84, 85, 86, 87, 88, 89, 90,
   97, 98, 99, 100, 101, 102, 103, 104, 105, 106, 107, 108, 109, 110, 111,
   112, 113, 114, 115, 116, 117, 118, 119, 120, 121, 122,
   48, 49, 50, 51, 52, 53, 54, 55, 56, 57, 43, 47]

/-- Char code of the sextet `n` (0-63) in the base64 alphabet. -/
def b64code (n : Nat) : Nat := b64alphabet.getD n 0

/-- Sextet value of a base64 char code, `none` if the code is not in the
alphabet (this is what makes JS `atob` throw). -/
def b64dec (c : Nat) : Option Nat := b64alphabet.indexOf? c

/-- JS `btoa` on a list of byte values: standard base64 with `=` (code 61)
padding. -/
def btoaList : List Nat → List Nat
  | [] => []
  | [b1] => [b64code (b1 / 4), b64code (b1 % 4 * 16), 61, 61]
  | [b1, b2] =>
      [b64code (b1 / 4), b64code (b1 % 4 * 16 + b2 / 16), b64code (b2 % 16 * 4), 61]
  | b1 :: b2 :: b3 :: bs =>
      b64code (b1 / 4) :: b64code (b1 % 4 * 16 + b2 / 16) ::
      b64code (b2 % 16 * 4 + b3 / 64) :: b64code (b3 % 64) :: btoaList bs

/-- Decode a final base64 group of 2, 3 or 4 chars (forgiving base64: a
4-char group may end in one or two `=`). Returns `none` on anything
malformed, which models `atob` throwing. -/
def atobTail : List Nat → Option (List Nat)
  | [c1, c2] => do
      let s1 ← b64dec c1
      let s2 ← b64dec c2
      some [s1 * 4 + s2 / 16]
  | [c1, c2, c3] => do
      let s1 ← b64dec c1
      let s2 ← b64dec c2
      let s3 ← b64dec c3
      some [s1 * 4 + s2 / 16, s2 % 16 * 16 + s3 / 4]
  | [c1, c2, c3, c4] =>
      if c3 = 61 ∧ c4 = 61 then do
        let s1 ← b64dec c1
        let s2 ← b64dec c2
        some [s1 * 4 + s2 / 16]
      else if c4 = 61 then do
        let s1 ← b64dec c1
        let s2 ← b64dec c2
        let s3 ← b64dec c3
        some [s1 * 4 + s2 / 16, s2 % 16 * 16 + s3 / 4]
      else do
        let s1 ← b64dec c1
        let s2 ← b64dec c2
        let s3 ← b64dec c3
        let s4 ← b64dec c4
        some [s1 * 4 + s2 / 16, s2 % 16 * 16 + s3 / 4, s3 % 4 * 64 + s4]
  | _ => none

/-- JS `atob` on a list of char codes: decodes full 4-char groups and hands
the final group (length 2-4, possibly padded) to `atobTail`. -/
def atobList : List Nat → Option (List Nat)
  | [] => some []
  | c1 :: c2 :: c3 :: c4 :: c5 :: cs => do
      let s1 ← b64dec c1
      let s2 ← b64dec c2
      let s3 ← b64dec c3
      let s4 ← b64dec c4
      let rest ← atobList (c5 :: cs)
      some ((s1 * 4 + s2 / 16) :: (s2 % 16 * 16 + s3 / 4) :: (s3 % 4 * 64 + s4) :: rest)
  | l => atobTail l

/-- Char code of `:`. -/
def colonCode : Nat := 58

/-- The server's `generateToken(userId)`: `btoa` of
`userId ++ ":" ++ Date.now()`. The timestamp is an arbitrary byte list. -/
def generateToken (userId now : List Nat) : List Nat :=
  btoaList (userId ++ colonCode :: now)

/-- The server's `verifyToken(token)`: `atob`, then `split(':')[0]` — the
decoded text up to the first `:` (the whole text when there is none);
`none` exactly when `atob` throws. -/
def verifyToken (token : List Nat) : Option (List Nat) :=
  (atobList token).map (fun d => d.takeWhile (fun c => c ≠ colonCode))

theorem b64dec_b64code : ∀ n < 64, b64dec (b64code n) = some n := by decide

theorem b64code_ne_61 (n : Nat) : b64code n ≠ 61 := by
  rcases lt_or_le n 64 with h | h
  · revert n h; decide
  · unfold b64code
    rw [List.getD_eq_default]
    · decide
    · calc b64alphabet.length = 64 := by decide
        _ ≤ n := h

theorem b64code_lt (n : Nat) : b64code n < 123 := by
  rcases lt_or_le n 64 with h | h
  · revert n h; decide
  · unfold b64code
    rw [List.getD_eq_default]
    · decide
    · calc b64alphabet.length = 64 := by decide
        _ ≤ n := h

/-- Base64 round trip: decoding an encoding returns the original byte list. -/
theorem atobList_btoaList (bs : List Nat) (h : ∀ b ∈ bs, b < 256) :
    atobList (btoaList bs) = some bs := by
  induction bs using btoaList.induct with
  | case1 => simp [btoaList, atobList]
  | case2 b1 =>
      have hb1 : b1 < 256 := h b1 (by simp)
      simp only [btoaList, atobList, atobTail]
      rw [if_pos ⟨trivial, trivial⟩]
      rw [b64dec_b64code _ (by omega), b64dec_b64code _ (by omega)]
      refine congrArg some ?_
      simp only [List.cons.injEq, and_true]
      omega
  | case3 b1 b2 =>
      have hb1 : b1 < 256 := h b1 (by simp)
      have hb2 : b2 < 256 := h b2 (by simp)
      simp only [btoaList, atobList, atobTail]
      rw [if_neg (by rintro ⟨h1, -⟩; exact b64code_ne_61 _ h1), if_pos trivial]
      rw [b64dec_b64code _ (by omega), b64dec_b64code _ (by omega),
        b64dec_b64code _ (by omega)]
      refine congrArg some ?_
      simp only [List.cons.injEq, and_true]
      refine ⟨by omega, by omega⟩
  | case4 b1 b2 b3 bs ih =>
      have hb1 : b1 < 256 := h b1 (by simp)
      have hb2 : b2 < 256 := h b2 (by simp)
      have hb3 : b3 < 256 := h b3 (by simp)
      have hrest : ∀ b ∈ bs, b < 256 := fun b hb => h b (by simp [hb])
      have ih2 := ih hrest
      match bs, ih2 with
      | [], _ =>
          simp only [btoaList, atobList, atobTail]
          rw [if_neg (by rintro ⟨h1, -⟩; exact b64code_ne_61 _ h1),
            if_neg (b64code_ne_61 _)]
          rw [b64dec_b64code _ (by omega), b64dec_b64code _ (by omega),
            b64dec_b64code _ (by omega), b64dec_b64code _ (by omega)]
          refine congrArg some ?_
          simp only [List.cons.injEq, and_true]
          refine ⟨by omega, by omega, by omega⟩
      | b4 :: bs2, ih2 =>
          have hex : ∃ x y z w rest, btoaList (b4 :: bs2) = x :: y :: z :: w :: rest := by
            match bs2 with
            | [] => exact ⟨_, _, _, _, _, rfl⟩
            | [b5] => exact ⟨_, _, _, _, _, rfl⟩
            | b5 :: b6 :: bs3 => exact ⟨_, _, _, _, _, rfl⟩
          obtain ⟨x, y, z, w, rest, heq⟩ := hex
          show atobList (b64code (b1 / 4) :: b64code (b1 % 4 * 16 + b2 / 16) ::
            b64code (b2 % 16 * 4 + b3 / 64) :: b64code (b3 % 64) :: btoaList (b4 :: bs2)) =
            some (b1 :: b2 :: b3 :: b4 :: bs2)
          rw [heq]
          simp only [atobList]
          rw [← heq, ih2]
          rw [b64dec_b64code _ (by omega), b64dec_b64code _ (by omega),
            b64dec_b64code _ (by omega), b64dec_b64code _ (by omega)]
          refine congrArg some ?_
          simp only [List.cons.injEq]
          refine ⟨by omega, by omega, by omega, trivial⟩

theorem takeWhile_append_colon (email ts : List Nat) (h : colonCode ∉ email) :
    (email ++ colonCode :: ts).takeWhile (fun c => c ≠ colonCode) = email := by
  induction email with
  | nil => simp [List.takeWhile]
  | cons c cs ih =>
      have hc : c ≠ colonCode := fun hcc => h (by simp [hcc])
      have hcs : colonCode ∉ cs := fun hm => h (by simp [hm])
      simp only [List.cons_append, List.takeWhile_cons]
      rw [if_pos (by simpa using hc)]
      rw [ih hcs]

/-- C5: the round trip through token issuance and verification returns the
email, for any issuance timestamp; verification has no notion of time. -/
theorem token_roundtrip (email now : List Nat)
    (hemail : ∀ b ∈ email, b < 256) (hnow : ∀ b ∈ now, b < 256)
    (hcolon : colonCode ∉ email) :
    verifyToken (generateToken email now) = some email := by
  unfold verifyToken generateToken
  rw [atobList_btoaList]
  · rw [Option.map_some']
    rw [takeWhile_append_colon email now hcolon]
  · intro b hb
    rcases List.mem_append.mp hb with h | h
    · exact hemail b h
    · rcases List.mem_cons.mp h with h | h
      · simp [h, colonCode]
      · exact hnow b h

/-- C5 witness: concrete round trip for email "a@b" (codes 97,64,98) and
timestamp "17" (codes 49,55). -/
theorem token_roundtrip_witness :
    verifyToken (generateToken [97, 64, 98] [49, 55]) = some [97, 64, 98] :=
  token_roundtrip [97, 64, 98] [49, 55] (by decide) (by decide) (by decide)

theorem takeWhile_no_colon (d : List Nat) (h : colonCode ∉ d) :
    d.takeWhile (fun c => c ≠ colonCode) = d := by
  induction d with
  | nil => rfl
  | cons c cs ih =>
      have hc : c ≠ colonCode := fun hcc => h (by simp [hcc])
      have hcs : colonCode ∉ cs := fun hm => h (by simp [hm])
      simp only [List.takeWhile_cons]
      rw [if_pos (by simpa using hc), ih hcs]

/-- C9: verification returns no identity exactly when base64 decoding
throws; any token that decodes yields the decoded text up to the first `:`
(the whole text when `:` is absent, with no check for a second component),
so the bare base64 encoding of an email is accepted as a token for it. -/
theorem verifyToken_characterization :
    (∀ tok, verifyToken tok = none ↔ atobList tok = none) ∧
    (∀ tok d, atobList tok = some d →
      verifyToken tok = some (d.takeWhile (fun c => c ≠ colonCode))) ∧
    (∀ tok d, atobList tok = some d → colonCode ∉ d → verifyToken tok = some d) ∧
    (∀ email, (∀ b ∈ email, b < 256) → colonCode ∉ email →
      verifyToken (btoaList email) = some email) := by
  have h2 : ∀ tok d, atobList tok = some d →
      verifyToken tok = some (d.takeWhile (fun c => c ≠ colonCode)) := by
    intro tok d hd
    unfold verifyToken
    rw [hd, Option.map_some']
  have h3 : ∀ tok d, atobList tok = some d → colonCode ∉ d →
      verifyToken tok = some d := by
    intro tok d hd hnc
    rw [h2 tok d hd, takeWhile_no_colon d hnc]
  refine ⟨?_, h2, h3, ?_⟩
  · intro tok
    unfold verifyToken
    exact Option.map_eq_none'
  · intro email hb hnc
    exact h3 _ _ (atobList_btoaList email hb) hnc

/-- C9 witness: the bare encoding of the byte string 97,64,99 ("a@c") is
accepted as a token identifying exactly those bytes. -/
theorem verifyToken_characterization_witness :
    verifyToken (btoaList [97, 64, 99]) = some [97, 64, 99] :=
  verifyToken_characterization.2.2.2 [97, 64, 99] (by decide) (by decide)

/-! ## Key-value store and server data model

Handlers use keys `user:<email>`, `missions:<email>`, `transactions:<email>`,
`financial:<email>`, `post:<postId>`; each namespace is modelled as its own
association table keyed by the part after the prefix. -/

/-- Modelled from the spec: kv_store.tsx is imported by the server but its
source is not in the repository snapshot. Spec section 4.1: exact-key get. -/
def kvGet {V : Type} (tbl : List (String × V)) (k : String) : Option V :=
  (tbl.find? (fun p => p.1 == k)).map (fun p => p.2)

/-- Modelled from the spec: kv_store.tsx is imported by the server but its
source is not in the repository snapshot. Spec section 4.1: exact-key set,
last write wins. -/
def kvSet {V : Type} (tbl : List (String × V)) (k : String) (v : V) :
    List (String × V) :=
  if (tbl.find? (fun p => p.1 == k)).isSome then
    tbl.map (fun p => if p.1 == k then (k, v) else p)
  else
    tbl ++ [(k, v)]

theorem kvGet_kvSet_self {V : Type} (tbl : List (String × V)) (k : String) (v : V) :
    kvGet (kvSet tbl k v) k = some v := by
  unfold kvGet kvSet
  split
  · rename_i hsome
    induction tbl with
    | nil => simp at hsome
    | cons p ps ih =>
        by_cases hp : p.1 = k
        · rw [List.map_cons, if_pos (by simpa using hp)]
          rw [List.find?_cons_of_pos _ (by simp)]
          rfl
        · rw [List.map_cons, if_neg (by simpa using hp)]
          rw [List.find?_cons_of_neg _ (by simpa using hp)]
          apply ih
          rw [List.find?_cons_of_neg _ (by simpa using hp)] at hsome
          exact hsome
  · rename_i hnone
    induction tbl with
    | nil => simp [List.find?_cons_of_pos]
    | cons p ps ih =>
        by_cases hp : p.1 = k
        · exfalso
          apply hnone
          rw [List.find?_cons_of_pos _ (by simpa using hp)]
          rfl
        · rw [List.cons_append, List.find?_cons_of_neg _ (by simpa using hp)]
          apply ih
          intro hsome
          apply hnone
          rw [List.find?_cons_of_neg _ (by simpa using hp)]
          exact hsome

theorem kvGet_kvSet_other {V : Type} (tbl : List (String × V)) (k k2 : String)
    (v : V) (hne : k2 ≠ k) : kvGet (kvSet tbl k v) k2 = kvGet tbl k2 := by
  unfold kvGet kvSet
  split
  · rename_i hsome
    clear hsome
    induction tbl with
    | nil => simp
    | cons p ps ih =>
        by_cases hp : p.1 = k
        · rw [List.map_cons, if_pos (by simpa using hp)]
          rw [List.find?_cons_of_neg _ (by simpa using hne.symm)]
          rw [List.find?_cons_of_neg _ (by rw [hp]; simpa using hne.symm)]
          exact ih
        · rw [List.map_cons, if_neg (by simpa using hp)]
          by_cases hp2 : p.1 = k2
          · rw [List.find?_cons_of_pos _ (by simpa using hp2),
              List.find?_cons_of_pos _ (by simpa using hp2)]
          · rw [List.find?_cons_of_neg _ (by simpa using hp2),
              List.find?_cons_of_neg _ (by simpa using hp2)]
            exact ih
  · rw [List.find?_append]
    rw [List.find?_cons_of_neg _ (by simpa using hne.symm), List.find?_nil]
    rw [Option.or_none]

/-- A stored user record (`user:<email>` value). JS fields that a handler
reads with a `|| 0` / `|| []` / falsy guard are modelled with those defaults
for absent fields. -/
structure UserRec where
  name : String := ""
  email : String := ""
  password : String := ""
  createdAt : String := ""
  updatedAt : String := ""
  isOnboarded : Bool := false
  xpLevel : Int := 0
  streak : Int := 0
  currentSavings : Int := 0
  currentNetWorth : Int := 0
  monthlyIncome : Int := 0
  interests : List String := []
  friends : List String := []
  lastMissionDate : String := ""
deriving Repr, DecidableEq

/-- A mission object: the 11 fields required in the generated payload, plus
the `completed` / `completedAt` marks used by `/missions/complete`. -/
structure Mission where
  id : String := ""
  title : String := ""
  description : String := ""
  icon : String := ""
  xp : Int := 0
  category : String := ""
  timeEstimate : String := ""
  priority : String := ""
  classification : String := ""
  whyItMatters : String := ""
  tips : List String := []
  completed : Bool := false
  completedAt : String := ""
deriving Repr, DecidableEq

/-- The `missions:<email>` value. -/
structure MissionsData where
  missions : List Mission := []
  completedToday : Int := 0
  lastReset : String := ""
deriving Repr, DecidableEq

/-- A JSON scalar as the transaction validator distinguishes them: a number
or some non-number value (the validator only tests `typeof === 'number'`
and truthiness). -/
inductive JVal where
  | num (n : Int)
  | str (s : String)
deriving Repr, DecidableEq

/-- A stored transaction entry. -/
structure Txn where
  ttype : String := ""
  amount : Int := 0
  description : String := ""
  category : String := ""
  id : String := ""
  date : String := ""
deriving Repr, DecidableEq

/-- The request body of POST /transactions as validated by the handler. -/
structure TxnBody where
  ttype : Option JVal := none
  amount : Option JVal := none
  description : Option String := none
  category : Option String := none
deriving Repr, DecidableEq

/-- A community post record (`post:<postId>` value). -/
structure Post where
  id : String := ""
  userId : String := ""
  userName : String := ""
  content : String := ""
  ptype : String := ""
  likes : Int := 0
  comments : Int := 0
  createdAt : String := ""
deriving Repr, DecidableEq

/-- The whole KV state, split by key namespace. -/
structure ServerState where
  users : List (String × UserRec) := []
  missionsTbl : List (String × MissionsData) := []
  txnsTbl : List (String × List Txn) := []
  financialTbl : List (String × (String → Option String)) := []
  postsTbl : List (String × Post) := []

/-- Handler outcome envelope: success, or an error with an HTTP status. -/
inductive ApiResult where
  | ok
  | err (status : Nat) (msg : String)
deriving Repr, DecidableEq

/-- The user record the handlers see for an email: stored record or `{}`
(all-default) — this is the `await kv.get(...) || {}` idiom. -/
def userOf (s : ServerState) (email : String) : UserRec :=
  (kvGet s.users email).getD {}

def xpLevelOf (s : ServerState) (email : String) : Int :=
  (userOf s email).xpLevel

def friendsOf (s : ServerState) (email : String) : List String :=
  (userOf s email).friends

def savingsOf (s : ServerState) (email : String) : Int :=
  (userOf s email).currentSavings

def netWorthOf (s : ServerState) (email : String) : Int :=
  (userOf s email).currentNetWorth

/-! ## Handlers -/

/-- The SHA-256 digest of `hashPassword`, modelled as an opaque injective
tagging of the password (no claim depends on the digest itself). -/
def hashPassword (pw : String) : String := "sha256:" ++ pw

/-- POST /signup after body parse: missing-field check (JS falsy = empty
string), existing-user check, then store the fresh profile. Auth is not
required on this route. -/
def signup (s : ServerState) (email password name now : String) :
    ApiResult × ServerState :=
  if email = "" ∨ password = "" ∨ name = "" then
    (.err 400 "Missing required fields: email, password, name", s)
  else
    match kvGet s.users email with
    | some _ => (.err 400 "User with this email already exists", s)
    | none =>
        let u : UserRec :=
          { email := email, name := name, createdAt := now,
            isOnboarded := false, password := hashPassword password }
        (.ok, { s with users := kvSet s.users email u })

/-- Mark the first mission whose id matches as completed (the
`findIndex` / in-place update of /missions/complete); `none` when no
mission matches. -/
def markFirstCompleted (missionId : String) : List Mission → Option (List Mission)
  | [] => none
  | m :: ms =>
      if m.id = missionId then some ({ m with completed := true } :: ms)
      else (markFirstCompleted missionId ms).map (fun ms2 => m :: ms2)

/-- POST /missions/complete for an authenticated `userId`: update the
missions entry (mark found mission, else push a completed stub; bump
`completedToday`), then add the client-supplied `xpEarned` to the user's
`xpLevel` and stamp `lastMissionDate`. -/
def missionsComplete (s : ServerState) (userId missionId : String)
    (xpEarned : Int) (now : String) : ApiResult × ServerState :=
  let md := (kvGet s.missionsTbl userId).getD
    { missions := [], completedToday := 0, lastReset := now }
  let ms2 :=
    match markFirstCompleted missionId md.missions with
    | some ms2 => ms2
    | none => md.missions ++ [{ id := missionId, completed := true, completedAt := now }]
  let md2 : MissionsData :=
    { md with missions := ms2, completedToday := md.completedToday + 1 }
  let s1 := { s with missionsTbl := kvSet s.missionsTbl userId md2 }
  let u := userOf s1 userId
  let u2 := { u with xpLevel := u.xpLevel + xpEarned, lastMissionDate := now }
  (.ok, { s1 with users := kvSet s1.users userId u2 })

/-- The requester's record after appending the target to their friends
list (the first `kv.set` of /friends/add). -/
def friendsAddUsers1 (s : ServerState) (userId friendEmail : String) :
    List (String × UserRec) :=
  kvSet s.users userId
    { userOf s userId with friends := (userOf s userId).friends ++ [friendEmail] }

/-- The user table after the second, reverse write of /friends/add: the
target's list gains the requester unless already present. The target's
record is re-read from the store already updated by the first write. -/
def friendsAddUsers2 (s : ServerState) (userId friendEmail : String) :
    List (String × UserRec) :=
  if userId ∈ ((kvGet (friendsAddUsers1 s userId friendEmail) friendEmail).getD {}).friends then
    friendsAddUsers1 s userId friendEmail
  else
    kvSet (friendsAddUsers1 s userId friendEmail) friendEmail
      { (kvGet (friendsAddUsers1 s userId friendEmail) friendEmail).getD {} with
        friends := ((kvGet (friendsAddUsers1 s userId friendEmail) friendEmail).getD {}).friends ++ [userId] }

/-- POST /friends/add for an authenticated `userId`: 404 if the target has
no profile; 400 if already in the requester's list; otherwise append the
target to the requester's list, then (reading back the possibly updated
store) append the requester to the target's list unless already present. -/
def friendsAdd (s : ServerState) (userId friendEmail : String) :
    ApiResult × ServerState :=
  if kvGet s.users friendEmail = none then (.err 404 "User not found", s)
  else if friendEmail ∈ (userOf s userId).friends then
    (.err 400 "Already friends with this user", s)
  else (.ok, { s with users := friendsAddUsers2 s userId friendEmail })

/-- The first validation of POST /transactions:
`!type || !['income','expense','saving','investment'].includes(type)`. -/
def txnTypeOk (b : TxnBody) : Bool :=
  match b.ttype with
  | some (.str t) => ["income", "expense", "saving", "investment"].contains t
  | _ => false

/-- The second validation of POST /transactions:
`!amount || typeof amount !== 'number' || amount <= 0`. -/
def txnAmountOk (b : TxnBody) : Bool :=
  match b.amount with
  | some (.num n) => decide (0 < n)
  | _ => false

def txnTypeStr (b : TxnBody) : String :=
  match b.ttype with
  | some (.str t) => t
  | _ => ""

def txnAmountInt (b : TxnBody) : Int :=
  match b.amount with
  | some (.num n) => n
  | _ => 0

/-- POST /transactions for an authenticated `userId`: validate, append the
new entry to the transaction list, then recompute `currentSavings` /
`currentNetWorth` with the type-specific delta, clamped below at 0.
`idStr` stands for the generated `txn_<time>_<random>` id, `now` for the
ISO date. -/
def addTransaction (s : ServerState) (userId : String) (b : TxnBody)
    (idStr now : String) : ApiResult × ServerState :=
  if ¬ txnTypeOk b then
    (.err 400 "Invalid transaction type. Must be: income, expense, saving, or investment", s)
  else if ¬ txnAmountOk b then
    (.err 400 "Invalid amount. Must be a positive number", s)
  else
    let amount := txnAmountInt b
    let t := txnTypeStr b
    let txns := (kvGet s.txnsTbl userId).getD []
    let newTxn : Txn :=
      { ttype := t, amount := amount, description := b.description.getD "",
        category := b.category.getD "", id := idStr, date := now }
    let s1 := { s with txnsTbl := kvSet s.txnsTbl userId (txns ++ [newTxn]) }
    let u := userOf s1 userId
    let newSavings := if t = "saving" then u.currentSavings + amount else u.currentSavings
    let newNetWorth :=
      if t = "saving" ∨ t = "investment" ∨ t = "income" then u.currentNetWorth + amount
      else if t = "expense" then u.currentNetWorth - amount
      else u.currentNetWorth
    let u2 := { u with currentSavings := max 0 newSavings,
                       currentNetWorth := max 0 newNetWorth }
    (.ok, { s1 with users := kvSet s1.users userId u2 })

/-- POST /missions (save): overwrite the missions entry with the supplied
list, resetting `completedToday`. -/
def missionsSave (s : ServerState) (userId : String) (ms : List Mission)
    (now : String) : ServerState :=
  let md : MissionsData := { missions := ms, completedToday := 0, lastReset := now }
  { s with missionsTbl := kvSet s.missionsTbl userId md }

/-- POST /financial-data: overwrite the financial entry with the request
body plus a fresh `updatedAt`. -/
def financialSave (s : ServerState) (userId : String)
    (body : String → Option String) (now : String) : ServerState :=
  let fd : String → Option String := fun k => if k = "updatedAt" then some now else body k
  { s with financialTbl := kvSet s.financialTbl userId fd }

/-- POST /community/posts: reject blank content, else store a new post
keyed by `post_<time>_<userId>`. -/
def postCreate (s : ServerState) (userId content ptype now : String) :
    ApiResult × ServerState :=
  if content.trim = "" then (.err 400 "Content is required", s)
  else
    let u := userOf s userId
    let postId := "post_" ++ now ++ "_" ++ userId
    let p : Post :=
      { id := postId, userId := userId,
        userName := if u.name = "" then "Agent" else u.name,
        content := content.trim, ptype := if ptype = "" then "achievement" else ptype,
        likes := 0, comments := 0, createdAt := now }
    (.ok, { s with postsTbl := kvSet s.postsTbl postId p })

/-! ## POST /update-profile

The handler shallow-merges the JSON body into the stored profile:
`{...existingData, ...updates, updatedAt: now}`. For the frame claim the
profile is modelled as an open JSON object (field name to optional value),
which is exactly what the spread operates on. -/

/-- An open JSON object: field name to optional value. -/
def JObj : Type := String → Option String

/-- The merge `{...existing, ...updates, updatedAt: now}` of
POST /update-profile. -/
def updateProfileMerge (existing updates : JObj) (now : String) : JObj :=
  fun k =>
    if k = "updatedAt" then some now
    else
      match updates k with
      | some v => some v
      | none => existing k

/-- The profile patch applied by POST /update-profile in the structured
state model: any subset of fields may be overwritten (this models the same
shallow merge on the fields the other handlers read). -/
structure ProfilePatch where
  name : Option String := none
  email : Option String := none
  password : Option String := none
  isOnboarded : Option Bool := none
  xpLevel : Option Int := none
  streak : Option Int := none
  currentSavings : Option Int := none
  currentNetWorth : Option Int := none
  monthlyIncome : Option Int := none
  interests : Option (List String) := none
  friends : Option (List String) := none
deriving Repr, DecidableEq

/-- Apply a ProfilePatch to a stored record: field present in the patch
wins, else the stored field survives; `updatedAt` is stamped. -/
def applyPatch (u : UserRec) (p : ProfilePatch) (now : String) : UserRec :=
  { name := p.name.getD u.name
    email := p.email.getD u.email
    password := p.password.getD u.password
    createdAt := u.createdAt
    updatedAt := now
    isOnboarded := p.isOnboarded.getD u.isOnboarded
    xpLevel := p.xpLevel.getD u.xpLevel
    streak := p.streak.getD u.streak
    currentSavings := p.currentSavings.getD u.currentSavings
    currentNetWorth := p.currentNetWorth.getD u.currentNetWorth
    monthlyIncome := p.monthlyIncome.getD u.monthlyIncome
    interests := p.interests.getD u.interests
    friends := p.friends.getD u.friends
    lastMissionDate := u.lastMissionDate }

/-- POST /update-profile in the structured state model. -/
def updateProfile (s : ServerState) (userId : String) (p : ProfilePatch)
    (now : String) : ServerState :=
  { s with users := kvSet s.users userId (applyPatch (userOf s userId) p now) }

/-! ## Mission generation (POST /missions/generate) -/

/-- JS `x || d` for an optional string field: default on absent or empty
(falsy) value. -/
def jsOrStr (v : Option String) (d : String) : String :=
  match v with
  | some s => if s = "" then d else s
  | none => d

/-- JS `x || d` for an optional numeric field: default on absent or 0. -/
def jsOrInt (v : Option Int) (d : Int) : Int :=
  match v with
  | some n => if n = 0 then d else n
  | none => d

/-- One element of the JSON array parsed out of the AI response: every
field may be missing (or of the wrong shape, for `tips`). -/
structure PartialMission where
  id : Option String := none
  title : Option String := none
  description : Option String := none
  icon : Option String := none
  xp : Option Int := none
  category : Option String := none
  timeEstimate : Option String := none
  priority : Option String := none
  classification : Option String := none
  whyItMatters : Option String := none
  tips : Option (List String) := none
deriving Repr, DecidableEq

/-- The per-element backfill of `/missions/generate`: every missing (or
falsy) field is replaced by its default; `index` and `now` feed the default
id `mission_<index+1>_<Date.now()>`. JS `m.description || ''` keeps an
empty description empty. -/
def normalizeMission (now : String) (index : Nat) (m : PartialMission) : Mission :=
  { id := jsOrStr m.id ("mission_" ++ toString (index + 1) ++ "_" ++ now)
    title := jsOrStr m.title "Mission"
    description := (m.description.getD "")
    icon := jsOrStr m.icon "target"
    xp := jsOrInt m.xp 20
    category := jsOrStr m.category "LEARN"
    timeEstimate := jsOrStr m.timeEstimate "10_MIN"
    priority := jsOrStr m.priority "MEDIUM"
    classification := jsOrStr m.classification "BETA"
    whyItMatters := jsOrStr m.whyItMatters
      "This mission helps you progress towards your financial goals."
    tips := m.tips.getD ["Complete this mission to earn XP"]
    completed := false
    completedAt := "" }

/-- The deterministic fallback list: five fixed missions whose descriptions
are parameterized by the user's monthly income and first interest. The
income figure `max 200 (floor of 5 percent)` is modelled with exact integer
arithmetic. -/
def defaultMissions (u : UserRec) (now : String) : List Mission :=
  let income : Int := if u.monthlyIncome = 0 then 50000 else u.monthlyIncome
  let goal : String := jsOrStr u.interests.head? "wealth freedom"
  [ { id := "mission_1_" ++ now, title := "Execute savings protocol",
      description := "Allocate " ++ toString (max 200 (income * 5 / 100)) ++ " to emergency buffer",
      icon := "money", xp := 20, category := "SAVE", timeEstimate := "2_MIN",
      priority := "HIGH", classification := "ALPHA",
      whyItMatters := "Emergency fund protocols create financial stability barriers against unexpected system failures. Critical for wealth preservation.",
      tips := ["Implement automatic transfer protocols", "Round-up transaction algorithms", "Deploy micro-savings accumulation systems"] },
    { id := "mission_2_" ++ now, title := "Knowledge acquisition module",
      description := if goal = "business" then "Research 2 startup ideas" else "Complete investment strategy learning protocol",
      icon := "book", xp := 15, category := "LEARN", timeEstimate := "5_MIN",
      priority := "HIGH", classification := "BETA",
      whyItMatters := "Financial intelligence upgrades optimize decision-making algorithms and prevent costly system errors.",
      tips := ["Active note-taking during data acquisition", "Apply learned algorithms to portfolio systems", "Share intelligence with network nodes"] },
    { id := "mission_3_" ++ now, title := "Revenue stream expansion",
      description := if goal = "business" then "Create business plan outline" else "Submit 2 freelance proposals",
      icon := "briefcase", xp := 30, category := "EARN", timeEstimate := "30_MIN",
      priority := "HIGH", classification := "ALPHA",
      whyItMatters := "Multiple revenue streams accelerate wealth accumulation velocity and provide system redundancy.",
      tips := ["Customize each proposal for target client systems", "Highlight relevant skill matrices", "Deploy competitive pricing algorithms"] },
    { id := "mission_4_" ++ now, title := "Network expansion protocol",
      description := "Establish 2 professional node connections",
      icon := "handshake", xp := 25, category := "NETWORK", timeEstimate := "15_MIN",
      priority := "MEDIUM", classification := "GAMMA",
      whyItMatters := "Network node expansion increases opportunity discovery rates and collaborative wealth generation potential.",
      tips := ["Deploy personalized connection requests", "Reference mutual network nodes", "Share valuable data insights"] },
    { id := "mission_5_" ++ now, title := "Investment analysis protocol",
      description := "Research 3 investment opportunity matrices",
      icon := "chart", xp := 25, category := "LEARN", timeEstimate := "20_MIN",
      priority := "HIGH", classification := "BETA",
      whyItMatters := "Investment analysis protocols optimize return algorithms and minimize risk exposure vectors.",
      tips := ["Analyze expense ratio metrics", "Review fund management intelligence", "Compare benchmark performance data"] } ]

/-- What the AI collaborator attempt can come to, as the handler's nested
try/catch blocks distinguish the cases: the API call throws; the reply
yields no parseable JSON array; or a JSON array is parsed (possibly
empty — the handler only adopts it when non-empty). -/
inductive AIOutcome where
  | apiError
  | parseFailure
  | parsed (ms : List PartialMission)
deriving Repr, DecidableEq

/-- Index-aware map mirroring `parsedMissions.map((m, index) => ...)`. -/
def normalizeAll (now : String) : Nat → List PartialMission → List Mission
  | _, [] => []
  | i, m :: ms => normalizeMission now i m :: normalizeAll now (i + 1) ms

/-- The mission list computed by POST /missions/generate before the store
write: the deterministic fallback, replaced by the normalized AI array only
when the key is configured (`ai ≠ none`) and a non-empty array was parsed;
the final `missions.length === 0` re-check mirrors the source. -/
def generateMissions (u : UserRec) (now : String) (ai : Option AIOutcome) :
    List Mission :=
  let dflt := defaultMissions u now
  let missions :=
    match ai with
    | none => dflt
    | some .apiError => dflt
    | some .parseFailure => dflt
    | some (.parsed ms) =>
        if 0 < ms.length then normalizeAll now 0 ms else dflt
  if missions.length = 0 then dflt else missions

/-- The response payload and stored list of POST /missions/generate: each
generated mission stamped `completed: false`. -/
def missionsGenerateResponse (u : UserRec) (now : String)
    (ai : Option AIOutcome) : List Mission :=
  (generateMissions u now ai).map (fun m => { m with completed := false })

/-- POST /missions/generate state effect: overwrite `missions:<userId>`. -/
def missionsGenerate (s : ServerState) (userId : String)
    (ai : Option AIOutcome) (now : String) : ServerState :=
  let md : MissionsData :=
    { missions := missionsGenerateResponse (userOf s userId) now ai,
      completedToday := 0, lastReset := now }
  { s with missionsTbl := kvSet s.missionsTbl userId md }

/-- The 11 required mission fields of the generation contract. -/
def requiredFields : List String :=
  ["id", "title", "description", "icon", "xp", "category", "timeEstimate",
   "priority", "classification", "whyItMatters", "tips"]

/-- The JSON view of a mission: which named fields the serialized object
carries (every record field is emitted). -/
def Mission.fieldMap (m : Mission) : String → Option String
  | "id" => some m.id
  | "title" => some m.title
  | "description" => some m.description
  | "icon" => some m.icon
  | "xp" => some (toString m.xp)
  | "category" => some m.category
  | "timeEstimate" => some m.timeEstimate
  | "priority" => some m.priority
  | "classification" => some m.classification
  | "whyItMatters" => some m.whyItMatters
  | "tips" => some (String.intercalate "," m.tips)
  | "completed" => some (toString m.completed)
  | "completedAt" => some m.completedAt
  | _ => none

/-- A mission object is well formed when every required field is present. -/
def missionWellFormed (m : Mission) : Bool :=
  requiredFields.all (fun f => (m.fieldMap f).isSome)

/-! ## GET /leaderboard -/

/-- One row of the leaderboard response. -/
structure LBEntry where
  name : String
  email : String
  xp : Int
  level : Int
  streak : Int
  rank : Nat
  isCurrentUser : Bool
deriving Repr, DecidableEq

/-- The handler's filter: `user.isOnboarded && user.email` (truthy email =
non-empty). The `user && typeof user === 'object'` guard is structural in
the model. -/
def lbKeep (u : UserRec) : Bool :=
  u.isOnboarded && u.email != ""

/-- The descending-xp comparator order used by the leaderboard sort. -/
def lbGE (a b : UserRec) : Prop := b.xpLevel ≤ a.xpLevel

instance : DecidableRel lbGE := fun a b => Int.decLe b.xpLevel a.xpLevel

instance : IsTotal UserRec lbGE := ⟨fun a b => le_total b.xpLevel a.xpLevel⟩

instance : IsTrans UserRec lbGE := ⟨fun _ _ _ h1 h2 => le_trans h2 h1⟩

/-- One mapped row: `level = Math.floor(xp / 100)` is floored division,
`rank = index + 1`, `isCurrentUser` compares the stored email with the
authenticated id. -/
def mkEntry (userId : String) (i : Nat) (u : UserRec) : LBEntry :=
  { name := if u.name = "" then "Unknown" else u.name
    email := u.email
    xp := u.xpLevel
    level := Int.fdiv u.xpLevel 100
    streak := u.streak
    rank := i + 1
    isCurrentUser := u.email == userId }

/-- The handler's `.map((user, index) => ...)` over the truncated list. -/
def rankEntries (userId : String) : Nat → List UserRec → List LBEntry
  | _, [] => []
  | i, u :: us => mkEntry userId i u :: rankEntries userId (i + 1) us

/-- The prefix scan `kv.getByPrefix('user:')`: all stored user records.
Modelled from the spec: kv_store.tsx is not in the snapshot; section 4.1
specifies prefix-scan returning the list of values (order unspecified —
the model returns table order). -/
def allUsers (s : ServerState) : List UserRec :=
  s.users.map (fun p => p.2)

/-- GET /leaderboard for an authenticated `userId`: filter to onboarded
users with an email, sort by xp descending, truncate to 50, map to rows. -/
def leaderboard (s : ServerState) (userId : String) : List LBEntry :=
  rankEntries userId 0
    ((List.insertionSort lbGE ((allUsers s).filter lbKeep)).take 50)

/-- How many leaderboard rows are flagged as the requester. -/
def lbCurrentCount (s : ServerState) (userId : String) : Nat :=
  ((leaderboard s userId).filter (fun e => e.isCurrentUser)).length

/-! ## Operation sequences (for the xpLevel monotonicity claim) -/

/-- One mutating request, with all client-supplied data as parameters. -/
inductive Op where
  | opSignup (email password name now : String)
  | opUpdateProfile (userId : String) (p : ProfilePatch) (now : String)
  | opMissionsSave (userId : String) (ms : List Mission) (now : String)
  | opMissionsComplete (userId missionId : String) (xpEarned : Int) (now : String)
  | opMissionsGenerate (userId : String) (ai : Option AIOutcome) (now : String)
  | opFriendsAdd (userId friendEmail : String)
  | opAddTransaction (userId : String) (b : TxnBody) (idStr now : String)
  | opFinancialSave (userId : String) (body : String → Option String) (now : String)
  | opPostCreate (userId content ptype now : String)

/-- The state effect of one request. -/
def step (s : ServerState) : Op → ServerState
  | .opSignup e pw n now => (signup s e pw n now).2
  | .opUpdateProfile uid p now => updateProfile s uid p now
  | .opMissionsSave uid ms now => missionsSave s uid ms now
  | .opMissionsComplete uid mid xp now => (missionsComplete s uid mid xp now).2
  | .opMissionsGenerate uid ai now => missionsGenerate s uid ai now
  | .opFriendsAdd uid fe => (friendsAdd s uid fe).2
  | .opAddTransaction uid b idStr now => (addTransaction s uid b idStr now).2
  | .opFinancialSave uid body now => financialSave s uid body now
  | .opPostCreate uid c t now => (postCreate s uid c t now).2

/-- Run a sequence of requests left to right. -/
def runOps (s : ServerState) : List Op → ServerState
  | [] => s
  | op :: ops => runOps (step s op) ops

/-- Whether a request is the direct profile overwrite. -/
def Op.isUpdateProfile : Op → Bool
  | .opUpdateProfile _ _ _ => true
  | _ => false

/-- Whether a request's client-supplied xp (if any) is non-negative. -/
def Op.xpNonNeg : Op → Prop
  | .opMissionsComplete _ _ xp _ => 0 ≤ xp
  | _ => True

/-! ## Claim theorems -/

/-- C6 counterexample: the claim quantifies over every email, name and
password, but with an empty email (a JS falsy value) the first signup on a
state with no `user:` entry for it returns the 400 missing-fields error,
not success. -/
theorem signup_twice_counterexample :
    kvGet ({} : ServerState).users "" = none ∧
    (signup {} "" "pw" "nm" "t").1 ≠ ApiResult.ok := by
  constructor
  · rfl
  · decide

/-- C6 (amended): for non-empty email, password and name, starting from a
state with no user entry for the email, the first signup succeeds and the
second returns the 400 already-exists error. -/
theorem signup_twice (s : ServerState) (email pw nm now now2 : String)
    (he : email ≠ "") (hp : pw ≠ "") (hn : nm ≠ "")
    (habsent : kvGet s.users email = none) :
    (signup s email pw nm now).1 = ApiResult.ok ∧
    (signup (signup s email pw nm now).2 email pw nm now2).1 =
      ApiResult.err 400 "User with this email already exists" := by
  constructor
  · unfold signup
    rw [if_neg (by tauto), habsent]
  · have hsome : ∃ u, kvGet ((signup s email pw nm now).2).users email = some u := by
      unfold signup
      rw [if_neg (by tauto), habsent]
      exact ⟨_, kvGet_kvSet_self _ _ _⟩
    obtain ⟨u, hu⟩ := hsome
    generalize (signup s email pw nm now).2 = s1 at hu ⊢
    unfold signup
    rw [if_neg (by tauto), hu]

/-- C6 witness: the two-signup scenario at a concrete email. -/
theorem signup_twice_witness :
    (signup {} "e@x" "pw" "nm" "t1").1 = ApiResult.ok ∧
    (signup (signup {} "e@x" "pw" "nm" "t1").2 "e@x" "pw" "nm" "t2").1 =
      ApiResult.err 400 "User with this email already exists" :=
  signup_twice {} "e@x" "pw" "nm" "t1" "t2" (by decide) (by decide) (by decide) rfl

/-- C10: a transaction body failing validation yields a 400 and leaves the
state (transaction list, currentSavings, currentNetWorth, everything)
exactly as it was. -/
theorem transactions_invalid_no_write (s : ServerState) (userId : String)
    (b : TxnBody) (idStr now : String)
    (hinvalid : ¬(txnTypeOk b = true ∧ txnAmountOk b = true)) :
    (∃ msg, (addTransaction s userId b idStr now).1 = ApiResult.err 400 msg) ∧
    (addTransaction s userId b idStr now).2 = s := by
  unfold addTransaction
  by_cases ht : txnTypeOk b = true
  · have ha : ¬ txnAmountOk b = true := fun ha => hinvalid ⟨ht, ha⟩
    rw [if_neg (by simpa using ht), if_pos ha]
    exact ⟨⟨_, rfl⟩, rfl⟩
  · rw [if_pos ht]
    exact ⟨⟨_, rfl⟩, rfl⟩

/-- C10 witness: an unknown transaction type is rejected and writes
nothing. -/
theorem transactions_invalid_no_write_witness :
    (∃ msg, (addTransaction {} "a"
      { ttype := some (.str "loan"), amount := some (.num 5) } "i" "d").1 =
        ApiResult.err 400 msg) ∧
    (addTransaction {} "a"
      { ttype := some (.str "loan"), amount := some (.num 5) } "i" "d").2 =
      ({} : ServerState) :=
  transactions_invalid_no_write {} "a"
    { ttype := some (.str "loan"), amount := some (.num 5) } "i" "d" (by decide)

/-- A valid amount is strictly positive. -/
theorem txnAmountInt_pos (b : TxnBody) (ha : txnAmountOk b = true) :
    0 < txnAmountInt b := by
  unfold txnAmountOk at ha
  unfold txnAmountInt
  split at ha
  · simpa using ha
  · cases ha

/-- C3 counterexample: on a pre-state with a negative stored
`currentSavings`, a valid income transaction does not leave
`currentSavings` unchanged — the unconditional `Math.max(0, ...)` clamps it
to 0. -/
theorem transactions_totals_counterexample :
    txnTypeOk { ttype := some (.str "income"), amount := some (.num 10) } = true ∧
    txnAmountOk { ttype := some (.str "income"), amount := some (.num 10) } = true ∧
    savingsOf ({ users := [("a", { email := "a", currentSavings := -5 })] } : ServerState) "a" = -5 ∧
    savingsOf (addTransaction { users := [("a", { email := "a", currentSavings := -5 })] } "a"
      { ttype := some (.str "income"), amount := some (.num 10) } "i" "d").2 "a" = 0 := by
  refine ⟨by decide, by decide, by decide, by decide⟩

/-- C3 (amended): a valid transaction updates the stored totals by the
type-specific delta clamped below at 0; for saving both totals get the
amount added; for income and investment only net worth gets it, and for
expense net worth loses it, while `currentSavings` becomes
`max 0 (old currentSavings)` — unchanged exactly when the old value was
non-negative. When the pre-state totals are non-negative a saving
transaction increases both totals by exactly the amount. -/
theorem transactions_update_totals (s : ServerState) (userId : String)
    (b : TxnBody) (idStr now : String) (ht : txnTypeOk b = true)
    (ha : txnAmountOk b = true) :
    (txnTypeStr b = "saving" →
      savingsOf (addTransaction s userId b idStr now).2 userId =
        max 0 (savingsOf s userId + txnAmountInt b) ∧
      netWorthOf (addTransaction s userId b idStr now).2 userId =
        max 0 (netWorthOf s userId + txnAmountInt b)) ∧
    (txnTypeStr b = "income" ∨ txnTypeStr b = "investment" →
      netWorthOf (addTransaction s userId b idStr now).2 userId =
        max 0 (netWorthOf s userId + txnAmountInt b) ∧
      savingsOf (addTransaction s userId b idStr now).2 userId =
        max 0 (savingsOf s userId)) ∧
    (txnTypeStr b = "expense" →
      netWorthOf (addTransaction s userId b idStr now).2 userId =
        max 0 (netWorthOf s userId - txnAmountInt b) ∧
      savingsOf (addTransaction s userId b idStr now).2 userId =
        max 0 (savingsOf s userId)) ∧
    (txnTypeStr b = "saving" → 0 ≤ savingsOf s userId → 0 ≤ netWorthOf s userId →
      savingsOf (addTransaction s userId b idStr now).2 userId =
        savingsOf s userId + txnAmountInt b ∧
      netWorthOf (addTransaction s userId b idStr now).2 userId =
        netWorthOf s userId + txnAmountInt b) := by
  have hpos := txnAmountInt_pos b ha
  have hstate : (addTransaction s userId b idStr now).2.users =
      kvSet s.users userId
        (let u := userOf s userId
         let amount := txnAmountInt b
         let t := txnTypeStr b
         { u with
           currentSavings := max 0 (if t = "saving" then u.currentSavings + amount else u.currentSavings),
           currentNetWorth := max 0
             (if t = "saving" ∨ t = "investment" ∨ t = "income" then u.currentNetWorth + amount
              else if t = "expense" then u.currentNetWorth - amount
              else u.currentNetWorth) }) := by
    unfold addTransaction
    rw [if_neg (by simpa using ht), if_neg (by simpa using ha)]
    rfl
  have hsav : savingsOf (addTransaction s userId b idStr now).2 userId =
      max 0 (if txnTypeStr b = "saving" then savingsOf s userId + txnAmountInt b
             else savingsOf s userId) := by
    unfold savingsOf userOf
    rw [hstate, kvGet_kvSet_self]
    rfl
  have hnet : netWorthOf (addTransaction s userId b idStr now).2 userId =
      max 0 (if txnTypeStr b = "saving" ∨ txnTypeStr b = "investment" ∨ txnTypeStr b = "income"
             then netWorthOf s userId + txnAmountInt b
             else if txnTypeStr b = "expense" then netWorthOf s userId - txnAmountInt b
             else netWorthOf s userId) := by
    unfold netWorthOf userOf
    rw [hstate, kvGet_kvSet_self]
    rfl
  refine ⟨?_, ?_, ?_, ?_⟩
  · intro hsaving
    rw [hsav, hnet, if_pos hsaving, if_pos (Or.inl hsaving)]
    exact ⟨rfl, rfl⟩
  · intro hii
    have hne : txnTypeStr b ≠ "saving" := by
      rcases hii with h | h <;> rw [h] <;> decide
    rw [hsav, hnet, if_neg hne, if_pos (by tauto)]
    exact ⟨rfl, rfl⟩
  · intro hexp
    have hne : txnTypeStr b ≠ "saving" := by rw [hexp]; decide
    have hne2 : ¬(txnTypeStr b = "saving" ∨ txnTypeStr b = "investment" ∨
        txnTypeStr b = "income") := by
      rw [hexp]; decide
    rw [hsav, hnet, if_neg hne, if_neg hne2, if_pos hexp]
    exact ⟨rfl, rfl⟩
  · intro hsaving hs hn
    rw [hsav, hnet, if_pos hsaving, if_pos (Or.inl hsaving)]
    constructor <;> omega

/-- C3 witness: a saving of 10 on non-negative totals adds 10 to both. -/
theorem transactions_update_totals_witness :
    savingsOf (addTransaction { users := [("a", { email := "a", currentSavings := 3, currentNetWorth := 4 })] } "a"
      { ttype := some (.str "saving"), amount := some (.num 10) } "i" "d").2 "a" =
      3 + 10 ∧
    netWorthOf (addTransaction { users := [("a", { email := "a", currentSavings := 3, currentNetWorth := 4 })] } "a"
      { ttype := some (.str "saving"), amount := some (.num 10) } "i" "d").2 "a" =
      4 + 10 :=
  (transactions_update_totals
      { users := [("a", { email := "a", currentSavings := 3, currentNetWorth := 4 })] } "a"
      { ttype := some (.str "saving"), amount := some (.num 10) } "i" "d"
      (by decide) (by decide)).2.2.2 (by decide) (by decide) (by decide)

/-- POST /update-profile at the store level over open JSON profiles:
read the stored profile (or `{}`), merge, write back. -/
def updateProfileStored (tbl : List (String × JObj)) (userId : String)
    (up : JObj) (now : String) : List (String × JObj) :=
  let ex := (kvGet tbl userId).getD (fun _ => none)
  kvSet tbl userId (updateProfileMerge ex up now)

/-- C8 counterexample: when the update body itself names `updatedAt`, the
stored result carries the fresh stamp, not the body's value, so the claim
that every field named in the body maps to the body's value fails. -/
theorem update_profile_counterexample :
    (fun k => if k = "updatedAt" then some "1999" else none : JObj) "updatedAt"
        = some "1999" ∧
    updateProfileMerge (fun _ => none)
        (fun k => if k = "updatedAt" then some "1999" else none) "2026" "updatedAt"
      = some "2026" := by
  constructor
  · rfl
  · rfl

/-- C8 (amended): the stored result of POST /update-profile maps every
field named in the body other than `updatedAt` to the body's value, leaves
every other field (except `updatedAt`) at the stored profile's value, and
always carries the freshly stamped `updatedAt`; the merged object is
exactly what the store holds for the user afterwards. -/
theorem update_profile_merge_frame (tbl : List (String × JObj))
    (userId : String) (up : JObj) (now : String) :
    (kvGet (updateProfileStored tbl userId up now) userId =
      some (updateProfileMerge ((kvGet tbl userId).getD (fun _ => none)) up now)) ∧
    (∀ ex : JObj,
      updateProfileMerge ex up now "updatedAt" = some now ∧
      (∀ k, k ≠ "updatedAt" → ∀ v, up k = some v →
        updateProfileMerge ex up now k = some v) ∧
      (∀ k, k ≠ "updatedAt" → up k = none →
        updateProfileMerge ex up now k = ex k)) := by
  constructor
  · unfold updateProfileStored
    exact kvGet_kvSet_self _ _ _
  · intro ex
    refine ⟨?_, ?_, ?_⟩
    · unfold updateProfileMerge
      rw [if_pos rfl]
    · intro k hk v hv
      unfold updateProfileMerge
      rw [if_neg hk, hv]
    · intro k hk hv
      unfold updateProfileMerge
      rw [if_neg hk, hv]

/-- C8 witness: a concrete merge keeps an untouched stored field, adopts a
body field, and restamps `updatedAt`. -/
theorem update_profile_merge_frame_witness :
    updateProfileMerge (fun k => if k = "streak" then some "7" else none)
        (fun k => if k = "name" then some "N" else none) "t0" "name" = some "N" ∧
    updateProfileMerge (fun k => if k = "streak" then some "7" else none)
        (fun k => if k = "name" then some "N" else none) "t0" "streak" = some "7" ∧
    updateProfileMerge (fun k => if k = "streak" then some "7" else none)
        (fun k => if k = "name" then some "N" else none) "t0" "updatedAt" = some "t0" := by
  refine ⟨?_, ?_, ?_⟩
  · exact (update_profile_merge_frame [] "u"
      (fun k => if k = "name" then some "N" else none) "t0").2
      (fun k => if k = "streak" then some "7" else none) |>.2.1 "name" (by decide) "N" rfl
  · exact (update_profile_merge_frame [] "u"
      (fun k => if k = "name" then some "N" else none) "t0").2
      (fun k => if k = "streak" then some "7" else none) |>.2.2 "streak" (by decide) rfl
  · exact (update_profile_merge_frame [] "u"
      (fun k => if k = "name" then some "N" else none) "t0").2
      (fun k => if k = "streak" then some "7" else none) |>.1

theorem normalizeAll_length (now : String) (i : Nat) (ms : List PartialMission) :
    (normalizeAll now i ms).length = ms.length := by
  induction ms generalizing i with
  | nil => rfl
  | cons m ms ih => simp [normalizeAll, ih]

theorem missionWellFormed_true (m : Mission) : missionWellFormed m = true := rfl

/-- The mission count the handler actually produces for each AI outcome
(5 from the fallback; the parsed array's own length when it is adopted). -/
def expectedMissionCount : Option AIOutcome → Nat
  | some (.parsed ms) => if 0 < ms.length then ms.length else 5
  | _ => 5

/-- C1 counterexample: the AI collaborator successfully returning a parsed
one-element mission array makes the handler respond with 1 mission, not 5,
refuting "exactly 5 regardless of what the collaborator does". -/
theorem missions_generate_counterexample :
    (missionsGenerateResponse {} "0" (some (.parsed [{}]))).length = 1 := by
  decide

theorem generateMissions_length (u : UserRec) (now : String)
    (ai : Option AIOutcome) :
    (generateMissions u now ai).length = expectedMissionCount ai := by
  have hdflt : (defaultMissions u now).length = 5 := rfl
  unfold generateMissions expectedMissionCount
  rcases ai with _ | aio
  · show (if (defaultMissions u now).length = 0 then defaultMissions u now
      else defaultMissions u now).length = 5
    rw [if_neg (by rw [hdflt]; omega)]
    exact hdflt
  · cases aio with
    | apiError =>
        show (if (defaultMissions u now).length = 0 then defaultMissions u now
          else defaultMissions u now).length = 5
        rw [if_neg (by rw [hdflt]; omega)]
        exact hdflt
    | parseFailure =>
        show (if (defaultMissions u now).length = 0 then defaultMissions u now
          else defaultMissions u now).length = 5
        rw [if_neg (by rw [hdflt]; omega)]
        exact hdflt
    | parsed ms =>
        show (if (if 0 < ms.length then normalizeAll now 0 ms
            else defaultMissions u now).length = 0 then defaultMissions u now
          else if 0 < ms.length then normalizeAll now 0 ms
            else defaultMissions u now).length =
          (if 0 < ms.length then ms.length else 5)
        by_cases hms : 0 < ms.length
        · rw [if_pos hms, if_neg (by rw [normalizeAll_length]; omega),
            normalizeAll_length, if_pos hms]
        · rw [if_neg hms, if_neg (by rw [hdflt]; omega), if_neg hms]
          exact hdflt

theorem expectedMissionCount_pos (ai : Option AIOutcome) :
    0 < expectedMissionCount ai := by
  unfold expectedMissionCount
  rcases ai with _ | aio
  · show 0 < 5
    omega
  · cases aio with
    | apiError => show 0 < 5; omega
    | parseFailure => show 0 < 5; omega
    | parsed ms =>
        show 0 < if 0 < ms.length then ms.length else 5
        by_cases hms : 0 < ms.length
        · rw [if_pos hms]; exact hms
        · rw [if_neg hms]; omega

/-- C1 (amended): the response of POST /missions/generate is always a
non-empty list of well-formed missions (every required field present); it
has exactly 5 missions whenever the AI attempt is skipped or fails (or
parses an empty array), and otherwise exactly as many missions as the
parsed AI array. -/
theorem missions_generate_shape (u : UserRec) (now : String)
    (ai : Option AIOutcome) :
    0 < (missionsGenerateResponse u now ai).length ∧
    (missionsGenerateResponse u now ai).all missionWellFormed = true ∧
    (missionsGenerateResponse u now ai).length = expectedMissionCount ai := by
  have hwf : ∀ l : List Mission, l.all missionWellFormed = true := by
    intro l
    rw [List.all_eq_true]
    intro m _
    exact missionWellFormed_true m
  have hlen : (missionsGenerateResponse u now ai).length =
      (generateMissions u now ai).length := by
    unfold missionsGenerateResponse
    rw [List.length_map]
  rw [hlen, generateMissions_length]
  exact ⟨expectedMissionCount_pos ai, hwf _, rfl⟩

/-- The user-table effect of a valid POST /transactions. -/
theorem addTransaction_state_users (s : ServerState) (userId : String)
    (b : TxnBody) (idStr now : String) (ht : txnTypeOk b = true)
    (ha : txnAmountOk b = true) :
    (addTransaction s userId b idStr now).2.users =
      kvSet s.users userId
        { userOf s userId with
          currentSavings := max 0 (if txnTypeStr b = "saving"
            then (userOf s userId).currentSavings + txnAmountInt b
            else (userOf s userId).currentSavings),
          currentNetWorth := max 0 (if txnTypeStr b = "saving" ∨
              txnTypeStr b = "investment" ∨ txnTypeStr b = "income"
            then (userOf s userId).currentNetWorth + txnAmountInt b
            else if txnTypeStr b = "expense"
            then (userOf s userId).currentNetWorth - txnAmountInt b
            else (userOf s userId).currentNetWorth) } := by
  unfold addTransaction
  rw [if_neg (by simpa using ht), if_neg (by simpa using ha)]
  rfl

/-- Writing a user record whose `xpLevel` matches the stored one (for the
same key) never changes any user's observed `xpLevel`. -/
theorem xpLevel_kvSet_preserve (users : List (String × UserRec)) (k : String)
    (v : UserRec) (email : String)
    (hv : v.xpLevel = ((kvGet users k).getD {}).xpLevel) :
    ((kvGet (kvSet users k v) email).getD {}).xpLevel =
      ((kvGet users email).getD {}).xpLevel := by
  by_cases hee : email = k
  · subst hee
    rw [kvGet_kvSet_self]
    exact hv
  · rw [kvGet_kvSet_other _ _ _ _ hee]

/-- Adding a friend never changes any user's `xpLevel`. -/
theorem friendsAdd_xpLevel (s : ServerState) (uid fe email : String) :
    xpLevelOf (friendsAdd s uid fe).2 email = xpLevelOf s email := by
  unfold friendsAdd
  by_cases h404 : kvGet s.users fe = none
  · rw [if_pos h404]
  · rw [if_neg h404]
    by_cases hmem : fe ∈ (userOf s uid).friends
    · rw [if_pos hmem]
    · rw [if_neg hmem]
      unfold xpLevelOf userOf friendsAddUsers2
      by_cases hmem2 : uid ∈ ((kvGet (friendsAddUsers1 s uid fe) fe).getD {}).friends
      · rw [if_pos hmem2]
        unfold friendsAddUsers1
        exact xpLevel_kvSet_preserve _ _ _ _ rfl
      · rw [if_neg hmem2]
        have h1 := xpLevel_kvSet_preserve (friendsAddUsers1 s uid fe) fe
          { (kvGet (friendsAddUsers1 s uid fe) fe).getD {} with
            friends := ((kvGet (friendsAddUsers1 s uid fe) fe).getD {}).friends ++ [uid] }
          email rfl
        have h2 : ((kvGet (friendsAddUsers1 s uid fe) email).getD
            ({} : UserRec)).xpLevel = ((kvGet s.users email).getD {}).xpLevel := by
          unfold friendsAddUsers1
          exact xpLevel_kvSet_preserve _ _ _ _ rfl
        exact h1.trans h2

/-- One non-update-profile request with non-negative client xp never
decreases any user's stored `xpLevel`. -/
theorem xpLevel_step_mono (s : ServerState) (op : Op) (email : String)
    (h1 : op.isUpdateProfile = false) (h2 : op.xpNonNeg) :
    xpLevelOf s email ≤ xpLevelOf (step s op) email := by
  cases op with
  | opSignup e pw nm now =>
      show xpLevelOf s email ≤ xpLevelOf (signup s e pw nm now).2 email
      unfold signup
      split
      · exact le_refl _
      · cases hkv : kvGet s.users e with
        | some u => exact le_refl _
        | none =>
            unfold xpLevelOf userOf
            by_cases hee : email = e
            · subst hee
              rw [kvGet_kvSet_self, hkv]
              exact le_refl 0
            · rw [kvGet_kvSet_other _ _ _ _ hee]
  | opUpdateProfile uid p now => simp [Op.isUpdateProfile] at h1
  | opMissionsSave uid ms now => exact le_refl _
  | opMissionsComplete uid mid xp now =>
      have h2i : (0 : Int) ≤ xp := h2
      show xpLevelOf s email ≤ xpLevelOf (missionsComplete s uid mid xp now).2 email
      have hstate : (missionsComplete s uid mid xp now).2.users =
          kvSet s.users uid
            { userOf s uid with
              xpLevel := (userOf s uid).xpLevel + xp, lastMissionDate := now } := rfl
      unfold xpLevelOf userOf
      rw [hstate]
      by_cases hee : email = uid
      · subst hee
        rw [kvGet_kvSet_self]
        show ((kvGet s.users email).getD {}).xpLevel ≤
          ((kvGet s.users email).getD {}).xpLevel + xp
        omega
      · rw [kvGet_kvSet_other _ _ _ _ hee]
  | opMissionsGenerate uid ai now => exact le_refl _
  | opFriendsAdd uid fe =>
      show xpLevelOf s email ≤ xpLevelOf (friendsAdd s uid fe).2 email
      rw [friendsAdd_xpLevel]
  | opAddTransaction uid b idStr now =>
      show xpLevelOf s email ≤ xpLevelOf (addTransaction s uid b idStr now).2 email
      by_cases ht : txnTypeOk b = true
      · by_cases ha : txnAmountOk b = true
        · unfold xpLevelOf userOf
          rw [addTransaction_state_users s uid b idStr now ht ha]
          exact le_of_eq (xpLevel_kvSet_preserve _ _ _ _ (by rfl)).symm
        · unfold addTransaction
          rw [if_neg (by simpa using ht), if_pos (by simpa using ha)]
      · unfold addTransaction
        rw [if_pos (by simpa using ht)]
  | opFinancialSave uid body now => exact le_refl _
  | opPostCreate uid c t now =>
      show xpLevelOf s email ≤ xpLevelOf (postCreate s uid c t now).2 email
      unfold postCreate
      split
      · exact le_refl _
      · exact le_refl _

/-- C4 counterexample: a single POST /missions/complete with a negative
client-supplied `xpEarned` strictly decreases the stored `xpLevel` (the
server adds whatever the client sends). -/
theorem xpLevel_decrease_counterexample :
    xpLevelOf ({ users := [("a", { email := "a", xpLevel := 100 })] } : ServerState) "a" = 100 ∧
    xpLevelOf (runOps { users := [("a", { email := "a", xpLevel := 100 })] }
      [.opMissionsComplete "a" "m1" (-50) "t"]) "a" = 50 := by
  constructor
  · rfl
  · decide

/-- C4 (amended): over any sequence of handler operations that contains no
direct profile overwrite and in which every mission completion carries a
non-negative client `xpEarned`, every user's stored `xpLevel` is
monotonically non-decreasing. -/
theorem xpLevel_monotone (s : ServerState) (ops : List Op) (email : String)
    (hnoup : ∀ op ∈ ops, op.isUpdateProfile = false)
    (hxp : ∀ op ∈ ops, op.xpNonNeg) :
    xpLevelOf s email ≤ xpLevelOf (runOps s ops) email := by
  induction ops generalizing s with
  | nil => exact le_refl _
  | cons op ops ih =>
      have hstep := xpLevel_step_mono s op email (hnoup op (by simp)) (hxp op (by simp))
      have hrest := ih (step s op) (fun o ho => hnoup o (by simp [ho]))
        (fun o ho => hxp o (by simp [ho]))
      exact le_trans hstep hrest

/-- C4 witness: a concrete two-request run (mission completion then friend
add) keeps `xpLevel` non-decreasing. -/
theorem xpLevel_monotone_witness :
    xpLevelOf ({ users := [("a", { email := "a", xpLevel := 7 }), ("b", { email := "b" })] } : ServerState) "a" ≤
    xpLevelOf (runOps { users := [("a", { email := "a", xpLevel := 7 }), ("b", { email := "b" })] }
      [.opMissionsComplete "a" "m1" 30 "t", .opFriendsAdd "a" "b"]) "a" :=
  xpLevel_monotone _ _ "a"
    (by
      intro op hop
      simp only [List.mem_cons, List.not_mem_nil, or_false] at hop
      rcases hop with rfl | rfl <;> rfl)
    (by
      intro op hop
      simp only [List.mem_cons, List.not_mem_nil, or_false] at hop
      rcases hop with rfl | rfl
      · show (0 : Int) ≤ 30
        omega
      · trivial)

theorem nodup_append_one {l : List String} {a : String} (ha : a ∉ l)
    (hl : l.Nodup) : (l ++ [a]).Nodup := by
  rw [List.nodup_append]
  refine ⟨hl, List.nodup_singleton a, ?_⟩
  intro x hx hx2
  simp only [List.mem_singleton] at hx2
  subst hx2
  exact ha hx

/-- C7: a successful /friends/add appends the target to the requester's
list (so it contains the target, with no duplicate introduced) and ensures
the requester is in the target's list (appending only when absent, so no
duplicate is introduced there either); when the target has no profile the
call returns 404 and the state is untouched. -/
theorem friends_add_symmetric (s : ServerState) (userId friendEmail : String) :
    (kvGet s.users friendEmail = none →
      friendsAdd s userId friendEmail = (ApiResult.err 404 "User not found", s)) ∧
    ((friendsAdd s userId friendEmail).1 = ApiResult.ok →
      friendsOf (friendsAdd s userId friendEmail).2 userId =
        friendsOf s userId ++ [friendEmail] ∧
      friendEmail ∈ friendsOf (friendsAdd s userId friendEmail).2 userId ∧
      userId ∈ friendsOf (friendsAdd s userId friendEmail).2 friendEmail ∧
      ((friendsOf s userId).Nodup →
        (friendsOf (friendsAdd s userId friendEmail).2 userId).Nodup) ∧
      ((friendsOf s friendEmail).Nodup →
        (friendsOf (friendsAdd s userId friendEmail).2 friendEmail).Nodup)) := by
  constructor
  · intro h404
    unfold friendsAdd
    rw [if_pos h404]
  · intro hok
    have h404 : ¬ kvGet s.users friendEmail = none := by
      intro h
      unfold friendsAdd at hok
      rw [if_pos h] at hok
      exact ApiResult.noConfusion hok
    have hmem : ¬ friendEmail ∈ (userOf s userId).friends := by
      intro h
      unfold friendsAdd at hok
      rw [if_neg h404, if_pos h] at hok
      exact ApiResult.noConfusion hok
    have hstate : (friendsAdd s userId friendEmail).2 =
        { s with users := friendsAddUsers2 s userId friendEmail } := by
      unfold friendsAdd
      rw [if_neg h404, if_neg hmem]
    have hu1 : kvGet (friendsAddUsers1 s userId friendEmail) userId =
        some { userOf s userId with
               friends := (userOf s userId).friends ++ [friendEmail] } := by
      unfold friendsAddUsers1
      exact kvGet_kvSet_self _ _ _
    rw [hstate]
    by_cases huid : userId = friendEmail
    · subst huid
      have hin : userId ∈
          ((kvGet (friendsAddUsers1 s userId userId) userId).getD {}).friends := by
        rw [hu1]
        simp
      have hfr : friendsOf { s with users := friendsAddUsers2 s userId userId } userId =
          (userOf s userId).friends ++ [userId] := by
        unfold friendsOf userOf friendsAddUsers2
        rw [if_pos hin, hu1]
        rfl
      refine ⟨hfr, ?_, ?_, ?_, ?_⟩
      · rw [hfr]; simp
      · rw [hfr]; simp
      · intro hnd
        rw [hfr]
        exact nodup_append_one hmem hnd
      · intro hnd
        rw [hfr]
        exact nodup_append_one hmem hnd
    · obtain ⟨fB, hfB⟩ := Option.ne_none_iff_exists'.mp h404
      have hget1 : kvGet (friendsAddUsers1 s userId friendEmail) friendEmail =
          some fB := by
        unfold friendsAddUsers1
        rw [kvGet_kvSet_other _ _ _ _ (fun h => huid h.symm), hfB]
      have hfrS : friendsOf s friendEmail = fB.friends := by
        unfold friendsOf userOf
        rw [hfB]
        rfl
      by_cases hin : userId ∈
          ((kvGet (friendsAddUsers1 s userId friendEmail) friendEmail).getD {}).friends
      · have husers : friendsAddUsers2 s userId friendEmail =
            friendsAddUsers1 s userId friendEmail := by
          unfold friendsAddUsers2
          rw [if_pos hin]
        have hfr : friendsOf { s with users := friendsAddUsers2 s userId friendEmail } userId =
            (userOf s userId).friends ++ [friendEmail] := by
          unfold friendsOf userOf
          rw [husers, hu1]
          rfl
        have hfrB : friendsOf { s with users := friendsAddUsers2 s userId friendEmail } friendEmail =
            fB.friends := by
          unfold friendsOf userOf
          rw [husers, hget1]
          rfl
        refine ⟨hfr, ?_, ?_, ?_, ?_⟩
        · rw [hfr]; simp
        · rw [hfrB]
          rw [hget1] at hin
          simpa using hin
        · intro hnd
          rw [hfr]
          exact nodup_append_one hmem hnd
        · intro hnd
          rw [hfrB, hfrS] at *
          exact hnd
      · have husers : friendsAddUsers2 s userId friendEmail =
            kvSet (friendsAddUsers1 s userId friendEmail) friendEmail
              { (kvGet (friendsAddUsers1 s userId friendEmail) friendEmail).getD {} with
                friends := ((kvGet (friendsAddUsers1 s userId friendEmail) friendEmail).getD {}).friends ++ [userId] } := by
          unfold friendsAddUsers2
          rw [if_neg hin]
        have hfr : friendsOf { s with users := friendsAddUsers2 s userId friendEmail } userId =
            (userOf s userId).friends ++ [friendEmail] := by
          unfold friendsOf userOf
          rw [husers, kvGet_kvSet_other _ _ _ _ huid, hu1]
          rfl
        have hfrB : friendsOf { s with users := friendsAddUsers2 s userId friendEmail } friendEmail =
            fB.friends ++ [userId] := by
          unfold friendsOf userOf
          rw [husers, kvGet_kvSet_self, hget1]
          rfl
        rw [hget1] at hin
        simp only [Option.getD_some] at hin
        refine ⟨hfr, ?_, ?_, ?_, ?_⟩
        · rw [hfr]; simp
        · rw [hfrB]; simp
        · intro hnd
          rw [hfr]
          exact nodup_append_one hmem hnd
        · intro hnd
          rw [hfrB]
          rw [hfrS] at hnd
          exact nodup_append_one hin hnd

/-- C7 witness: a concrete successful friend-add between users a and b
yields mutual membership. -/
theorem friends_add_symmetric_witness :
    "b" ∈ friendsOf (friendsAdd { users := [("a", { email := "a" }), ("b", { email := "b" })] } "a" "b").2 "a" ∧
    "a" ∈ friendsOf (friendsAdd { users := [("a", { email := "a" }), ("b", { email := "b" })] } "a" "b").2 "b" := by
  have h := (friends_add_symmetric
    { users := [("a", { email := "a" }), ("b", { email := "b" })] } "a" "b").2 (by decide)
  exact ⟨h.2.1, h.2.2.1⟩

/-! ## Leaderboard lemmas (C2) -/

theorem rankEntries_length (uid : String) (i : Nat) (l : List UserRec) :
    (rankEntries uid i l).length = l.length := by
  induction l generalizing i with
  | nil => rfl
  | cons u us ih => simp [rankEntries, ih]

theorem rankEntries_countP (uid : String) (i : Nat) (l : List UserRec) :
    (rankEntries uid i l).countP (fun e => e.isCurrentUser) =
      l.countP (fun u => u.email == uid) := by
  induction l generalizing i with
  | nil => rfl
  | cons u us ih =>
      show List.countP _ (mkEntry uid i u :: rankEntries uid (i + 1) us) = _
      rw [List.countP_cons, List.countP_cons, ih]
      rfl

theorem rankEntries_mem (uid : String) (i : Nat) (l : List UserRec)
    (e : LBEntry) (he : e ∈ rankEntries uid i l) : ∃ u ∈ l, e.xp = u.xpLevel := by
  induction l generalizing i with
  | nil => cases he
  | cons u us ih =>
      rcases List.mem_cons.mp he with h | h
      · exact ⟨u, by simp, by rw [h]; rfl⟩
      · obtain ⟨v, hv, hxp⟩ := ih (i + 1) h
        exact ⟨v, by simp [hv], hxp⟩

theorem rankEntries_sorted (uid : String) (i : Nat) (l : List UserRec)
    (h : List.Pairwise lbGE l) :
    List.Pairwise (fun a b : LBEntry => b.xp ≤ a.xp) (rankEntries uid i l) := by
  induction l generalizing i with
  | nil => exact List.Pairwise.nil
  | cons u us ih =>
      rcases List.pairwise_cons.mp h with ⟨hu, hus⟩
      refine List.Pairwise.cons ?_ (ih (i + 1) hus)
      intro e he
      obtain ⟨v, hv, hxp⟩ := rankEntries_mem uid (i + 1) us e he
      rw [hxp]
      exact hu v hv

theorem countP_le_one_of_email_nodup (uid : String) (l : List UserRec)
    (h : (l.map (fun u => u.email)).Nodup) :
    l.countP (fun u => u.email == uid) ≤ 1 := by
  induction l with
  | nil => simp
  | cons u us ih =>
      rw [List.map_cons, List.nodup_cons] at h
      rw [List.countP_cons]
      by_cases hu : u.email = uid
      · have hz : us.countP (fun v => v.email == uid) = 0 := by
          rw [List.countP_eq_zero]
          intro v hv
          simp only [beq_iff_eq]
          intro hveq
          refine h.1 ?_
          rw [hu, ← hveq]
          exact List.mem_map_of_mem _ hv
        rw [hz]
        simp [hu]
      · rw [if_neg (by simpa using hu)]
        simpa using ih h.2

/-- The well-keyed-store invariant: user records are keyed by their own
email and keys are unique (signup creates records this way; only a profile
overwrite of the `email` field can break it). -/
def usersWellKeyed (s : ServerState) : Prop :=
  (s.users.map (fun p => p.1)).Nodup ∧ ∀ p ∈ s.users, p.2.email = p.1

theorem kvGet_mem {V : Type} (tbl : List (String × V)) (k : String) (v : V)
    (h : kvGet tbl k = some v) : (k, v) ∈ tbl := by
  unfold kvGet at h
  cases hf : tbl.find? (fun p => p.1 == k) with
  | none => rw [hf] at h; cases h
  | some q =>
      rw [hf] at h
      have hq : q.1 = k := by simpa using List.find?_some hf
      have hv : q.2 = v := by simpa using h
      have : q ∈ tbl := List.mem_of_find?_eq_some hf
      rwa [show (k, v) = q from by rw [← hq, ← hv]]

theorem kvGet_of_mem_nodup {V : Type} (tbl : List (String × V))
    (hnd : (tbl.map (fun p => p.1)).Nodup) (k : String) (v : V)
    (hmem : (k, v) ∈ tbl) : kvGet tbl k = some v := by
  induction tbl with
  | nil => cases hmem
  | cons p ps ih =>
      rw [List.map_cons, List.nodup_cons] at hnd
      rcases List.mem_cons.mp hmem with h | h
      · subst h
        unfold kvGet
        rw [List.find?_cons_of_pos _ (by simp)]
        rfl
      · have hp : p.1 ≠ k := by
          intro hpk
          exact hnd.1 (by rw [hpk]; exact List.mem_map_of_mem _ (by
            have : (k, v) ∈ ps := h
            exact this))
        unfold kvGet
        rw [List.find?_cons_of_neg _ (by simpa using hp)]
        exact ih hnd.2 h

theorem allUsers_email_nodup (s : ServerState) (hwf : usersWellKeyed s) :
    ((allUsers s).map (fun u => u.email)).Nodup := by
  unfold allUsers
  rw [List.map_map]
  have : s.users.map (fun p => p.2.email) = s.users.map (fun p => p.1) :=
    List.map_congr_left (fun p hp => hwf.2 p hp)
  rw [show ((fun u : UserRec => u.email) ∘ fun p : String × UserRec => p.2) =
    (fun p : String × UserRec => p.2.email) from rfl, this]
  exact hwf.1

/-- C2 (amended): the leaderboard is sorted descending by xp and has at
most 50 rows; over a well-keyed store, at most one row is flagged
`isCurrentUser` — exactly one when the requester's record is onboarded and
at most 50 users pass the onboarded filter, and none when the requester's
record is absent or not onboarded. (A non-empty authenticated id is what
the handler's falsy guard guarantees.) -/
theorem leaderboard_shape (s : ServerState) (userId : String)
    (hwf : usersWellKeyed s) (huid : userId ≠ "") :
    List.Sorted (fun a b : LBEntry => b.xp ≤ a.xp) (leaderboard s userId) ∧
    (leaderboard s userId).length ≤ 50 ∧
    lbCurrentCount s userId ≤ 1 ∧
    ((∀ u, kvGet s.users userId = some u → u.isOnboarded = false) →
      lbCurrentCount s userId = 0) ∧
    (∀ u, kvGet s.users userId = some u → u.isOnboarded = true →
      ((allUsers s).filter lbKeep).length ≤ 50 →
      lbCurrentCount s userId = 1) := by
  have hperm : (List.insertionSort lbGE ((allUsers s).filter lbKeep)).Perm
      ((allUsers s).filter lbKeep) := List.perm_insertionSort lbGE _
  have hcc : lbCurrentCount s userId =
      ((List.insertionSort lbGE ((allUsers s).filter lbKeep)).take 50).countP
        (fun u => u.email == userId) := by
    unfold lbCurrentCount leaderboard
    rw [← List.countP_eq_length_filter, rankEntries_countP]
  have hle1 : ((allUsers s).filter lbKeep).countP (fun u => u.email == userId) ≤ 1 :=
    le_trans (List.Sublist.countP_le _ (List.filter_sublist _))
      (countP_le_one_of_email_nodup userId (allUsers s) (allUsers_email_nodup s hwf))
  have htake_le : ((List.insertionSort lbGE ((allUsers s).filter lbKeep)).take 50).countP
        (fun u => u.email == userId) ≤
      ((allUsers s).filter lbKeep).countP (fun u => u.email == userId) := by
    refine le_trans (List.Sublist.countP_le _ (List.take_sublist _ _)) ?_
    rw [List.Perm.countP_eq _ hperm]
  refine ⟨?_, ?_, ?_, ?_, ?_⟩
  · unfold leaderboard
    refine rankEntries_sorted userId 0 _ ?_
    exact List.Pairwise.sublist (List.take_sublist _ _)
      (List.sorted_insertionSort lbGE _)
  · unfold leaderboard
    rw [rankEntries_length]
    exact List.length_take_le _ _
  · rw [hcc]
    exact le_trans htake_le hle1
  · intro hnot
    have hzero : ((allUsers s).filter lbKeep).countP (fun u => u.email == userId) = 0 := by
      rw [List.countP_eq_zero]
      intro u hu
      rcases List.mem_filter.mp hu with ⟨humem, hkeep⟩
      simp only [beq_iff_eq]
      intro hemail
      obtain ⟨p, hp, hpu⟩ := List.mem_map.mp humem
      have hkey : p.1 = userId := by rw [← hwf.2 p hp, hpu, hemail]
      have hget : kvGet s.users userId = some u := by
        have : (userId, u) ∈ s.users := by
          have : p = (userId, u) := by
            rcases p with ⟨k, v⟩
            simp only at hpu hkey
            rw [hkey, hpu]
          rwa [this] at hp
        exact kvGet_of_mem_nodup s.users hwf.1 userId u this
      have honb := hnot u hget
      unfold lbKeep at hkeep
      rw [honb] at hkeep
      simp at hkeep
    rw [hcc]
    omega
  · intro u hget honb hlen
    have hmem : (userId, u) ∈ s.users := kvGet_mem s.users userId u hget
    have humem : u ∈ allUsers s := by
      unfold allUsers
      exact List.mem_map.mpr ⟨(userId, u), hmem, rfl⟩
    have hemail : u.email = userId := hwf.2 (userId, u) hmem
    have hkeep : lbKeep u = true := by
      unfold lbKeep
      rw [honb, hemail]
      simpa using huid
    have hge1 : 0 < ((allUsers s).filter lbKeep).countP (fun v => v.email == userId) :=
      List.countP_pos_iff.mpr ⟨u, List.mem_filter.mpr ⟨humem, hkeep⟩, by simp [hemail]⟩
    have hlen2 : (List.insertionSort lbGE ((allUsers s).filter lbKeep)).length ≤ 50 := by
      rw [hperm.length_eq]
      exact hlen
    rw [hcc, List.take_of_length_le hlen2, List.Perm.countP_eq _ hperm]
    omega

/-- A store of 51 onboarded users with distinct emails and increasing xp,
used to refute the claim that the requester always gets a flagged row. -/
def cexTbl : List (String × UserRec) :=
  (List.range 51).map (fun i =>
    (String.mk (List.replicate (i + 1) 'u'),
     { email := String.mk (List.replicate (i + 1) 'u'), isOnboarded := true,
       xpLevel := (i : Int) + 1 }))

/-- The counterexample store: the onboarded requester "me" with xp 0 plus
the 51 users of `cexTbl`. -/
def cexState : ServerState :=
  { users := ("me", { email := "me", isOnboarded := true, xpLevel := 0 }) :: cexTbl }

/-- C2 counterexample: with 52 onboarded users and the requester ranked
last, the 50-row truncation drops the requester, so no row is flagged
`isCurrentUser` even though the requester is onboarded. -/
theorem leaderboard_counterexample :
    (kvGet cexState.users "me").map (fun u => u.isOnboarded) = some true ∧
    lbCurrentCount cexState "me" = 0 := by
  refine ⟨by decide, by decide⟩

/-- C2 witness: a one-user store where the onboarded requester is flagged
exactly once. -/
theorem leaderboard_shape_witness :
    lbCurrentCount ({ users := [("a", { email := "a", isOnboarded := true })] } : ServerState) "a" = 1 :=
  (leaderboard_shape { users := [("a", { email := "a", isOnboarded := true })] } "a"
      ⟨by decide, by decide⟩ (by decide)).2.2.2.2
    { email := "a", isOnboarded := true } (by decide) (by decide) (by decide)
